import Mathlib

/-!
Verification of the KimmiV2-Agent repository against its natural-language
specification.  The development shallowly embeds:

* the console chain-output schema (TrendChainSchema) and the submit
  handler of web/pages/index.tsx;
* the API proxy handler of web/pages/api/agent.ts;
* the chain orchestration core (Contract Validator, Stage Executor,
  Retry/Fallback Controller, Chain Orchestrator).  The core implementation
  file is not part of the sources available here, so those components are
  modelled from the specification, as marked on each definition.
-/

/-! ## A JSON value model -/

/-- A JSON value as produced by parsing a model reply or a request body. -/
inductive Json where
  | str (s : String)
  | num (n : Int)
  | bool (b : Bool)
  | null
  | arr (elems : List Json)
  | obj (fields : List (String × Json))
deriving Repr

/-- First-match lookup of a key in a JSON object field list. -/
def lookupField : List (String × Json) → String → Option Json
  | [], _ => none
  | (k, v) :: rest, name => if k = name then some v else lookupField rest name

/-- Field access on a JSON value; objects only. -/
def getField : Json → String → Option Json
  | .obj fields, name => lookupField fields name
  | _, _ => none

/-- A string-typed JSON value, as accepted by a Zod string schema. -/
def asString : Json → Option String
  | .str s => some s
  | _ => none

/-- Whitespace characters trimmed by the JavaScript trim method
(restricted to the ASCII whitespace actually appearing in the repository). -/
def isWs (c : Char) : Bool := c = ' ' || c = '\t' || c = '\n' || c = '\r'

/-- JavaScript-style trim on strings: removes leading and trailing
whitespace characters. -/
def jsTrim (s : String) : String :=
  String.mk (((s.data.dropWhile isWs).reverse.dropWhile isWs).reverse)

/-- Elementwise parsing of a list, failing when any element fails.  This is
the element-validation part of a Zod array schema. -/
def mapOpt {α β : Type} (p : α → Option β) : List α → Option (List β)
  | [] => some []
  | x :: xs => (p x).bind fun y => (mapOpt p xs).map fun ys => y :: ys

/-! ## Console chain-output schema

Embedding of TrendChainSchema from web/pages/index.tsx (lines 24-57): a Zod
object with five string fields and three array fields, each array required
to have exactly 3 entries whose elements are objects of string fields. -/

/-- One idea entry, per the ideas element schema of TrendChainSchema. -/
structure Idea where
  title : String
  angle : String
  callToAction : String
deriving Repr, DecidableEq

/-- One hook entry, per the hooks element schema of TrendChainSchema. -/
structure Hook where
  ideaRef : String
  «structure» : String
  hook : String
deriving Repr, DecidableEq

/-- One score entry, per the scores element schema of TrendChainSchema. -/
structure Score where
  ideaRef : String
  score : String
  rationale : String
deriving Repr, DecidableEq

/-- The parsed result type of TrendChainSchema (z.infer of the schema). -/
structure TrendChainResult where
  niche : String
  trendSource : String
  style : String
  platform : String
  summary : String
  ideas : List Idea
  hooks : List Hook
  scores : List Score
deriving Repr, DecidableEq

/-- A required string field of a Zod object: present and string-typed. -/
def strField (j : Json) (name : String) : Option String :=
  (getField j name).bind asString

/-- A Zod array schema with a length-3 constraint: the value must be an
array, every element must validate, and the length must be exactly 3. -/
def parseArr3 {α : Type} (p : Json → Option α) : Json → Option (List α)
  | .arr xs =>
    (mapOpt p xs).bind fun items =>
      if items.length = 3 then some items else none
  | _ => none

/-- A required array field validated by parseArr3. -/
def arrField3 {α : Type} (j : Json) (name : String) (p : Json → Option α) :
    Option (List α) :=
  (getField j name).bind (parseArr3 p)

/-- Element schema of the ideas array of TrendChainSchema. -/
def parseIdea (j : Json) : Option Idea :=
  (strField j "title").bind fun title =>
  (strField j "angle").bind fun angle =>
  (strField j "callToAction").map fun callToAction =>
  ⟨title, angle, callToAction⟩

/-- Element schema of the hooks array of TrendChainSchema. -/
def parseHook (j : Json) : Option Hook :=
  (strField j "ideaRef").bind fun ideaRef =>
  (strField j "structure").bind fun structure0 =>
  (strField j "hook").map fun hook =>
  ⟨ideaRef, structure0, hook⟩

/-- Element schema of the scores array of TrendChainSchema. -/
def parseScore (j : Json) : Option Score :=
  (strField j "ideaRef").bind fun ideaRef =>
  (strField j "score").bind fun score =>
  (strField j "rationale").map fun rationale =>
  ⟨ideaRef, score, rationale⟩

/-- Acceptance by TrendChainSchema: the candidate parses exactly when all
declared fields are present with their declared types and each of the three
array fields has exactly 3 validated entries.  Mirrors
TrendChainSchema.parse of web/pages/index.tsx. -/
def parseTrendChain (j : Json) : Option TrendChainResult :=
  (strField j "niche").bind fun niche =>
  (strField j "trendSource").bind fun trendSource =>
  (strField j "style").bind fun style =>
  (strField j "platform").bind fun platform =>
  (strField j "summary").bind fun summary =>
  (arrField3 j "ideas" parseIdea).bind fun ideas =>
  (arrField3 j "hooks" parseHook).bind fun hooks =>
  (arrField3 j "scores" parseScore).map fun scores =>
  ⟨niche, trendSource, style, platform, summary, ideas, hooks, scores⟩

/-- Is a score value one of the three values named by the specification. -/
def scoreInEnum (s : String) : Bool := s = "High" || s = "Medium" || s = "Low"

/-- Is a hook structure value one of the two style tags named by the
specification. -/
def structureInEnum (s : String) : Bool := s = "AIDA" || s = "PAS"

/-! ## Console submit handler

Embedding of the submit function of web/pages/index.tsx (lines 73-112):
the pre-request validation and request-body construction. -/

/-- The form state read by submit. -/
structure FormState where
  niche : String
  trendSource : String
  notes : String
  style : String
  platform : String
deriving Repr, DecidableEq

/-- The JSON request body built by submit for the api agent route. -/
structure RequestBody where
  niche : String
  trendSource : String
  notes : String
  style : String
  platform : String
deriving Repr, DecidableEq

/-- Outcome of the pre-request part of submit: either the validation error
is set and no request is sent, or a request with the given body is sent. -/
inductive SubmitOutcome where
  | blocked (err : String)
  | send (body : RequestBody)
deriving Repr, DecidableEq

/-- The pre-request logic of submit: trim niche and notes, reject when
either is empty, otherwise build the request body with fallback values for
blank trendSource and platform. -/
def submit (f : FormState) : SubmitOutcome :=
  let trimmedNiche := jsTrim f.niche
  let trimmedNotes := jsTrim f.notes
  if trimmedNiche = "" || trimmedNotes = "" then
    .blocked "Niche and notes are required."
  else
    .send
      { niche := trimmedNiche
        trendSource := if jsTrim f.trendSource = "" then "unspecified" else jsTrim f.trendSource
        notes := trimmedNotes
        style := f.style
        platform := if jsTrim f.platform = "" then "TikTok" else jsTrim f.platform }

/-! ## API proxy handler

Embedding of the default handler of web/pages/api/agent.ts.  The backend
interaction is modelled by a FetchOutcome value: either the fetch call (or
a later await in the try block) throws, or the backend responded with a
status and a body whose JSON decoding either succeeds or fails. -/

/-- Outcome of the forwarded fetch to the backend agent service. -/
inductive FetchOutcome where
  | throws (msg : String)
  | response (status : Nat) (body : Except String Json)
deriving Repr

/-- The ok flag of a fetch response: status in the 200-299 range. -/
def respOk (status : Nat) : Bool := 200 ≤ status && status < 300

/-- JavaScript truthiness of a JSON value. -/
def jsTruthy : Json → Bool
  | .null => false
  | .bool b => b
  | .num n => n != 0
  | .str s => s != ""
  | .arr _ => true
  | .obj _ => true

/-- One HTTP response produced by the proxy handler. -/
structure ApiResponse where
  status : Nat
  body : Json
  allow : Option (List String)
deriving Repr

/-- The proxy handler of web/pages/api/agent.ts.  Returns the single
response it sends together with a flag telling whether the request was
forwarded to the backend.  Non-POST requests are answered 405 with the
Allow header and are never forwarded; inside the try block a thrown error
is answered 500, a non-ok backend reply is forwarded with its status and
its decoded error payload (an empty object when decoding fails, the
default detail when the decoded payload is falsy), and an ok backend reply
is answered 200 with its decoded body (a decoding failure there propagates
to the catch and is answered 500). -/
def handler (method : String) (outcome : FetchOutcome) : ApiResponse × Bool :=
  if method ≠ "POST" then
    (⟨405, .obj [("detail", .str "Method not allowed")], some ["POST"]⟩, false)
  else
    match outcome with
    | .throws msg => (⟨500, .obj [("detail", .str msg)], none⟩, true)
    | .response status bodyDecode =>
      if respOk status then
        match bodyDecode with
        | .ok data => (⟨200, data, none⟩, true)
        | .error msg => (⟨500, .obj [("detail", .str msg)], none⟩, true)
      else
        let errorPayload := match bodyDecode with
          | .ok v => v
          | .error _ => .obj []
        let sent := if jsTruthy errorPayload then errorPayload
          else .obj [("detail", .str "Agent call failed")]
        (⟨status, sent, none⟩, true)

/-! ## Chain orchestration core

The implementation file of the validator, executor, retry controller and
orchestrator is not among the available sources; the definitions below are
modelled from the specification, as their doc comments state. -/

/-- Modelled from the spec: the closed failure taxonomy of the Contract
Validator (missing implementation file of the chain core). -/
inductive FailReason where
  | parse_error
  | missing_field
  | wrong_type
  | wrong_count
  | empty_value
deriving Repr, DecidableEq

/-- Modelled from the spec: the declared type of a required output field
(a string field, or a sequence field with an optional exact count). -/
inductive FieldTy where
  | str
  | seq (exact : Option Nat)
deriving Repr, DecidableEq

/-- Modelled from the spec: one required field of a stage output contract. -/
structure FieldReq where
  name : String
  ty : FieldTy
deriving Repr

/-- Modelled from the spec: classification of one required field of a
candidate output against its declared type.  None means the field passes;
a blank string or empty sequence is empty, a type mismatch is wrong type,
a sequence with a cardinality different from the required exact count is
wrong count. -/
def validateField (j : Json) (req : FieldReq) : Option FailReason :=
  match getField j req.name with
  | none => some .missing_field
  | some v =>
    match req.ty, v with
    | .str, .str s => if jsTrim s = "" then some .empty_value else none
    | .seq exact, .arr xs =>
      if xs.isEmpty then some .empty_value
      else
        match exact with
        | some n => if xs.length = n then none else some .wrong_count
        | none => none
    | _, _ => some .wrong_type

/-- Modelled from the spec: the first classified failure among the contract
fields of a candidate, in contract order. -/
def firstFailure : List FieldReq → Json → Option FailReason
  | [], _ => none
  | req :: rest, j =>
    match validateField j req with
    | some r => some r
    | none => firstFailure rest j

/-- Modelled from the spec: the Contract Validator outcome. -/
inductive ValidationOutcome where
  | valid (value : Json)
  | invalid (reason : FailReason)
deriving Repr

/-- Modelled from the spec: the Contract Validator.  A parse failure
indicator is classified parse error; otherwise the candidate is valid
exactly when every contract field passes. -/
def validate (contract : List FieldReq) (cand : Except Unit Json) :
    ValidationOutcome :=
  match cand with
  | .error _ => .invalid .parse_error
  | .ok j =>
    match firstFailure contract j with
    | some r => .invalid r
    | none => .valid j

/-- Modelled from the spec: the Model Client reply shape
(ok with raw text, or a transport-level failure with a reason). -/
inductive ClientReply where
  | ok (text : String)
  | err (reason : String)
deriving Repr

/-- Modelled from the spec: one immutable stage definition of the
four-stage table (name, output contract, prompt template). -/
structure StageSpec where
  name : String
  contract : List FieldReq
  promptTemplate : Json → String

/-- Modelled from the spec: human-readable text of a classified reason,
used when the retry prompt embeds the first failure reason. -/
def reasonText : FailReason → String
  | .parse_error => "parse_error"
  | .missing_field => "missing_field"
  | .wrong_type => "wrong_type"
  | .wrong_count => "wrong_count"
  | .empty_value => "empty_value"

/-- Modelled from the spec: the clarification note appended on a retry,
stating the specific reason of the first failure. -/
def clarificationNote (r : FailReason) : String :=
  "The previous attempt failed with reason " ++ reasonText r ++
    ". Address this failure and reply again."

/-- Modelled from the spec: prompt rendering of the Stage Executor; the
clarification note is appended only on a retry attempt. -/
def renderPrompt (s : StageSpec) (input : Json) (clar : Option FailReason) :
    String :=
  s.promptTemplate input ++
    match clar with
    | none => ""
    | some r => clarificationNote r

/-- Modelled from the spec: what one Stage Executor call produced — the
prompt sent, the raw model reply when the transport succeeded, and the
candidate handed to the validator. -/
structure ExecResult where
  prompt : String
  raw : Option String
  candidate : Except Unit Json

/-- Modelled from the spec: the Stage Executor.  Renders the prompt,
invokes the Model Client once, and returns the parsed candidate; a
transport-level failure is returned as the parse-failure indicator rather
than raised. -/
def executeStage (parse : String → Except Unit Json)
    (client : String → ClientReply) (s : StageSpec) (input : Json)
    (clar : Option FailReason) : ExecResult :=
  let p := renderPrompt s input clar
  match client p with
  | .ok text => ⟨p, some text, parse text⟩
  | .err _ => ⟨p, none, .error ()⟩

/-- Modelled from the spec: one recorded Attempt — stage name, attempt
index, prompt sent, raw model reply, and the validation failure reason
(none when the attempt passed validation). -/
structure Attempt where
  stage : String
  index : Nat
  prompt : String
  raw : Option String
  vres : Option FailReason
deriving Repr, DecidableEq

/-- Modelled from the spec: outcome of the Retry/Fallback Controller for
one stage, carrying every recorded attempt. -/
inductive StageResult where
  | success (value : Json) (attempts : List Attempt)
  | failure (attempts : List Attempt)

/-- The attempts recorded by a stage outcome. -/
def StageResult.attempts : StageResult → List Attempt
  | .success _ atts => atts
  | .failure atts => atts

/-- Modelled from the spec: the Retry/Fallback Controller.  First attempt
without clarification; on an invalid result one retry whose prompt embeds
the first failure reason; failure after a second invalid result.  Every
attempt is recorded. -/
def runStage (parse : String → Except Unit Json)
    (client : String → ClientReply) (s : StageSpec) (input : Json) :
    StageResult :=
  let e1 := executeStage parse client s input none
  match validate s.contract e1.candidate with
  | .valid v => .success v [⟨s.name, 1, e1.prompt, e1.raw, none⟩]
  | .invalid r1 =>
    let e2 := executeStage parse client s input (some r1)
    match validate s.contract e2.candidate with
    | .valid v =>
      .success v
        [⟨s.name, 1, e1.prompt, e1.raw, some r1⟩,
         ⟨s.name, 2, e2.prompt, e2.raw, none⟩]
    | .invalid r2 =>
      .failure
        [⟨s.name, 1, e1.prompt, e1.raw, some r1⟩,
         ⟨s.name, 2, e2.prompt, e2.raw, some r2⟩]

/-- Modelled from the spec: the literal fallback string returned when a
stage exhausts its retries. -/
def fallbackMessage : String := "No idea generated – retry later."

/-- Modelled from the spec: the aborted payload handed to the caller — the
fallback string, the failing stage name, and the attempts of that stage. -/
structure AbortPayload where
  fallback : String
  stage : String
  attempts : List Attempt

/-- Modelled from the spec: the terminal RunResult — either the composite
of every completed stage output, or the aborted payload. -/
inductive RunResult where
  | completed (outputs : List (String × Json))
  | aborted (payload : AbortPayload)

/-- Modelled from the spec: merging a validated stage output into the
carried-forward context to form the next stage input. -/
def mergeInput (ctx out : Json) : Json :=
  match ctx, out with
  | .obj a, .obj b => .obj (a ++ b)
  | _, _ => out

/-- Modelled from the spec: the Chain Orchestrator loop over the remaining
stages.  Returns the run result and the full recorded attempt trail. -/
def runChainGo (parse : String → Except Unit Json)
    (client : String → ClientReply) :
    List StageSpec → Json → RunResult × List Attempt
  | [], _ => (.completed [], [])
  | s :: rest, input =>
    match runStage parse client s input with
    | .success v atts =>
      match runChainGo parse client rest (mergeInput input v) with
      | (.completed outs, trail) => (.completed ((s.name, v) :: outs), atts ++ trail)
      | (.aborted p, trail) => (.aborted p, atts ++ trail)
    | .failure atts => (.aborted ⟨fallbackMessage, s.name, atts⟩, atts)

/-- Modelled from the spec: one full run of the chain from the seed input. -/
def runChain (parse : String → Except Unit Json)
    (client : String → ClientReply) (stages : List StageSpec) (seed : Json) :
    RunResult × List Attempt :=
  runChainGo parse client stages seed

/-- Modelled from the spec: successfully running a leading segment of the
stage list, returning the input reaching the next stage and the attempt
trail of the segment; none when some stage of the segment fails. -/
def runUpTo (parse : String → Except Unit Json)
    (client : String → ClientReply) :
    List StageSpec → Json → Option (Json × List Attempt)
  | [], input => some (input, [])
  | s :: rest, input =>
    match runStage parse client s input with
    | .success v atts =>
      match runUpTo parse client rest (mergeInput input v) with
      | some (inp2, tr) => some (inp2, atts ++ tr)
      | none => none
    | .failure _ => none

/-- Modelled from the spec: the first chain stage, producing a summary. -/
def stageSummarize : StageSpec :=
  ⟨"summarizeTrend", [⟨"summary", .str⟩],
    fun _ => "Summarize the trend for the active niche. "⟩

/-- Modelled from the spec: the second chain stage, producing three ideas. -/
def stageIdeas : StageSpec :=
  ⟨"generateIdeas", [⟨"ideas", .seq (some 3)⟩],
    fun _ => "Generate exactly three content ideas. "⟩

/-- Modelled from the spec: the third chain stage, producing three hooks. -/
def stageHooks : StageSpec :=
  ⟨"writeHooks", [⟨"hooks", .seq (some 3)⟩],
    fun _ => "Write three hooks in the requested style. "⟩

/-- Modelled from the spec: the fourth chain stage, producing three scores. -/
def stageScores : StageSpec :=
  ⟨"estimatePerformance", [⟨"scores", .seq (some 3)⟩],
    fun _ => "Estimate performance for each hook. "⟩

/-- Modelled from the spec: the fixed table of the four chain stages with
their output contracts (a summary string, then exactly three ideas, hooks
and scores). -/
def trendStages : List StageSpec :=
  [stageSummarize, stageIdeas, stageHooks, stageScores]

/-- A candidate field value that is blank for its declared type: an empty
or all-whitespace string, or an empty sequence. -/
def isBlankFor : FieldTy → Json → Bool
  | .str, .str s => jsTrim s = ""
  | .seq _, .arr xs => xs.isEmpty
  | _, _ => false

/-- A trivially failing text parser, standing for a model reply that never
decodes to structured data; used to exercise the chain on failing runs. -/
def parseNone : String → Except Unit Json := fun _ => .error ()

/-- A Model Client whose transport always fails with a timeout reason. -/
def clientTimeout : String → ClientReply := fun _ => .err "timeout"

/-- A concrete idea entry as JSON, for exercising the console schema. -/
def ideaJson (tag : String) : Json :=
  .obj [("title", .str tag), ("angle", .str "angle"), ("callToAction", .str "cta")]

/-- A concrete hook entry as JSON with the given structure tag. -/
def hookJson (tag st : String) : Json :=
  .obj [("ideaRef", .str tag), ("structure", .str st), ("hook", .str "hook")]

/-- A concrete score entry as JSON with the given score value. -/
def scoreJson (tag sc : String) : Json :=
  .obj [("ideaRef", .str tag), ("score", .str sc), ("rationale", .str "why")]

/-- A structurally conforming chain output whose three scores carry the
given score value and whose three hooks carry the given structure tag. -/
def mkChainJson (sc st : String) : Json :=
  .obj [("niche", .str "Luxury skincare"), ("trendSource", .str "GlowTok"),
        ("style", .str "AIDA"), ("platform", .str "TikTok"),
        ("summary", .str "Enzyme masks trend."),
        ("ideas", .arr [ideaJson "idea-1", ideaJson "idea-2", ideaJson "idea-3"]),
        ("hooks", .arr [hookJson "idea-1" st, hookJson "idea-2" st, hookJson "idea-3" st]),
        ("scores", .arr [scoreJson "idea-1" sc, scoreJson "idea-2" sc, scoreJson "idea-3" sc])]

/-- The parsed result of mkChainJson. -/
def mkChainResult (sc st : String) : TrendChainResult :=
  ⟨"Luxury skincare", "GlowTok", "AIDA", "TikTok", "Enzyme masks trend.",
   [⟨"idea-1", "angle", "cta"⟩, ⟨"idea-2", "angle", "cta"⟩, ⟨"idea-3", "angle", "cta"⟩],
   [⟨"idea-1", st, "hook"⟩, ⟨"idea-2", st, "hook"⟩, ⟨"idea-3", st, "hook"⟩],
   [⟨"idea-1", sc, "why"⟩, ⟨"idea-2", sc, "why"⟩, ⟨"idea-3", sc, "why"⟩]⟩

/-- A chain output whose score values are not string-typed. -/
def badTypeChainJson : Json :=
  .obj [("niche", .str "Luxury skincare"), ("trendSource", .str "GlowTok"),
        ("style", .str "AIDA"), ("platform", .str "TikTok"),
        ("summary", .str "Enzyme masks trend."),
        ("ideas", .arr [ideaJson "idea-1", ideaJson "idea-2", ideaJson "idea-3"]),
        ("hooks", .arr [hookJson "idea-1" "AIDA", hookJson "idea-2" "AIDA", hookJson "idea-3" "AIDA"]),
        ("scores", .arr
          [.obj [("ideaRef", .str "idea-1"), ("score", .num 5), ("rationale", .str "why")],
           .obj [("ideaRef", .str "idea-2"), ("score", .num 4), ("rationale", .str "why")],
           .obj [("ideaRef", .str "idea-3"), ("score", .num 3), ("rationale", .str "why")]])]

/-- A concrete structurally conforming chain output with in-enumeration
score and structure values. -/
def sampleChainJson : Json := mkChainJson "High" "AIDA"

/-- The parsed result of sampleChainJson. -/
def sampleChainResult : TrendChainResult := mkChainResult "High" "AIDA"

/-- A concrete chain output accepted by the schema although its score and
structure values lie outside the enumerations named by the specification. -/
def c3Json : Json := mkChainJson "Banana" "FOMO"

/-- The parsed result of c3Json. -/
def c3Result : TrendChainResult := mkChainResult "Banana" "FOMO"

/-- The first recorded attempt of the summarize stage in a run whose Model
Client transport always fails. -/
def timeoutAttempt1 : Attempt :=
  ⟨"summarizeTrend", 1, "Summarize the trend for the active niche. ", none,
    some .parse_error⟩

/-- The second recorded attempt of the summarize stage in a run whose Model
Client transport always fails; its prompt embeds the first failure reason. -/
def timeoutAttempt2 : Attempt :=
  ⟨"summarizeTrend", 2,
    "Summarize the trend for the active niche. The previous attempt failed with reason parse_error. Address this failure and reply again.",
    none, some .parse_error⟩

/-- The aborted payload of a run whose Model Client transport always fails:
the summarize stage exhausts both attempts. -/
def timeoutPayload : AbortPayload :=
  ⟨fallbackMessage, "summarizeTrend", [timeoutAttempt1, timeoutAttempt2]⟩

/-! ## Shared lemmas about the console schema -/

theorem mapOpt_length {α β : Type} (p : α → Option β) :
    ∀ (xs : List α) (l : List β), mapOpt p xs = some l → l.length = xs.length := by
  intro xs
  induction xs with
  | nil =>
    intro l h
    simp only [mapOpt, Option.some.injEq] at h
    subst h
    rfl
  | cons x xs ih =>
    intro l h
    simp only [mapOpt, Option.bind_eq_some, Option.map_eq_some'] at h
    obtain ⟨y, _, ys, hys, hl⟩ := h
    subst hl
    simp [ih ys hys]

theorem parseArr3_inv {α : Type} (p : Json → Option α) (v : Json) (l : List α)
    (h : parseArr3 p v = some l) :
    ∃ xs, v = .arr xs ∧ mapOpt p xs = some l ∧ l.length = 3 ∧ xs.length = 3 := by
  cases v with
  | str s => simp [parseArr3] at h
  | num n => simp [parseArr3] at h
  | bool b => simp [parseArr3] at h
  | null => simp [parseArr3] at h
  | obj fields => simp [parseArr3] at h
  | arr xs =>
    refine ⟨xs, rfl, ?_⟩
    simp only [parseArr3, Option.bind_eq_some] at h
    obtain ⟨items, hm, hif⟩ := h
    by_cases hl : items.length = 3
    · rw [if_pos hl] at hif
      injection hif with hif
      subst hif
      exact ⟨hm, hl, by rw [← mapOpt_length p xs items hm]; exact hl⟩
    · rw [if_neg hl] at hif
      simp at hif

theorem parseTrendChain_inv (j : Json) (r : TrendChainResult)
    (h : parseTrendChain j = some r) :
    strField j "niche" = some r.niche ∧
    strField j "trendSource" = some r.trendSource ∧
    strField j "style" = some r.style ∧
    strField j "platform" = some r.platform ∧
    strField j "summary" = some r.summary ∧
    arrField3 j "ideas" parseIdea = some r.ideas ∧
    arrField3 j "hooks" parseHook = some r.hooks ∧
    arrField3 j "scores" parseScore = some r.scores := by
  simp only [parseTrendChain, Option.bind_eq_some, Option.map_eq_some'] at h
  obtain ⟨n, hn, t, ht, st, hst, pf, hpf, su, hsu, ii, hii, hh, hhh, sc, hsc, hr⟩ := h
  subst hr
  exact ⟨hn, ht, hst, hpf, hsu, hii, hhh, hsc⟩

theorem arrField3_len {α : Type} (p : Json → Option α) (j : Json) (name : String)
    (l : List α) (h : arrField3 j name p = some l) :
    l.length = 3 ∧ ∀ xs, getField j name = some (.arr xs) → xs.length = 3 := by
  simp only [arrField3, Option.bind_eq_some] at h
  obtain ⟨v, hv, hp⟩ := h
  obtain ⟨xs, hxs, _, hl3, hxl⟩ := parseArr3_inv p v l hp
  subst hxs
  refine ⟨hl3, ?_⟩
  intro ys hys
  rw [hv] at hys
  injection hys with hys
  injection hys with hys
  subst hys
  exact hxl

/-- Claim C1: every chain output that the console TrendChainSchema
validation accepts has ideas, hooks and scores of exactly 3 entries — both
in the parsed result and in the raw candidate arrays, so a candidate with
a different cardinality in any of these sequences is rejected. -/
theorem C1_completed_cardinality (j : Json) (r : TrendChainResult)
    (h : parseTrendChain j = some r) :
    (r.ideas.length = 3 ∧ r.hooks.length = 3 ∧ r.scores.length = 3) ∧
    (∀ xs, getField j "ideas" = some (.arr xs) → xs.length = 3) ∧
    (∀ xs, getField j "hooks" = some (.arr xs) → xs.length = 3) ∧
    (∀ xs, getField j "scores" = some (.arr xs) → xs.length = 3) := by
  obtain ⟨-, -, -, -, -, hi, hh, hs⟩ := parseTrendChain_inv j r h
  obtain ⟨hi3, hiarr⟩ := arrField3_len parseIdea j "ideas" r.ideas hi
  obtain ⟨hh3, hharr⟩ := arrField3_len parseHook j "hooks" r.hooks hh
  obtain ⟨hs3, hsarr⟩ := arrField3_len parseScore j "scores" r.scores hs
  exact ⟨⟨hi3, hh3, hs3⟩, hiarr, hharr, hsarr⟩

/-- Witness for claim C1 at a concrete accepted chain output. -/
theorem C1_witness :
    sampleChainResult.ideas.length = 3 ∧ sampleChainResult.hooks.length = 3 ∧
      sampleChainResult.scores.length = 3 :=
  (C1_completed_cardinality sampleChainJson sampleChainResult rfl).1

/-- Claim C3 counterexample: TrendChainSchema accepts a chain output whose
score values and hook structure values lie outside the enumerations High,
Medium, Low and AIDA, PAS, so validation does not reject such values. -/
theorem C3_counterexample :
    parseTrendChain c3Json = some c3Result ∧
    c3Result.scores.all (fun sc => scoreInEnum sc.score) = false ∧
    c3Result.hooks.all (fun hk => structureInEnum hk.«structure») = false :=
  ⟨rfl, rfl, rfl⟩

/-- Claim C3 (amended): TrendChainSchema requires score and structure to be
strings but does not constrain their values — any string is accepted in
these fields, while a non-string score value is rejected. -/
theorem C3_scores_structures_any_string :
    (∀ sc st : String, parseTrendChain (mkChainJson sc st) = some (mkChainResult sc st)) ∧
    parseTrendChain badTypeChainJson = none :=
  ⟨fun _ _ => rfl, rfl⟩

/-! ## Shared lemmas about the modelled Contract Validator -/

theorem firstFailure_none (contract : List FieldReq) (j : Json)
    (h : firstFailure contract j = none) :
    ∀ req ∈ contract, validateField j req = none := by
  induction contract with
  | nil => intro req hmem; exact absurd hmem (by simp)
  | cons q rest ih =>
    intro req hmem
    have hq : validateField j q = none ∧ firstFailure rest j = none := by
      simp only [firstFailure] at h
      cases hv : validateField j q with
      | some r => rw [hv] at h; simp at h
      | none => rw [hv] at h; exact ⟨rfl, h⟩
    rcases List.mem_cons.mp hmem with rfl | hmem2
    · exact hq.1
    · exact ih hq.2 req hmem2

/-- Claim C4: a required field that is present but blank (empty string,
all-whitespace string, or empty sequence) is classified empty value by the
Contract Validator, and a candidate carrying such a field is never valid. -/
theorem C4_blank_is_empty_value (j : Json) (req : FieldReq) (v : Json)
    (hget : getField j req.name = some v) (hblank : isBlankFor req.ty v = true) :
    validateField j req = some .empty_value ∧
    ∀ contract val, req ∈ contract → validate contract (.ok j) ≠ .valid val := by
  obtain ⟨name, ty⟩ := req
  have hvf : validateField j ⟨name, ty⟩ = some .empty_value := by
    cases ty with
    | str =>
      cases v with
      | str s =>
        simp only [isBlankFor, decide_eq_true_eq] at hblank
        simp [validateField, hget, hblank]
      | num n => simp [isBlankFor] at hblank
      | bool b => simp [isBlankFor] at hblank
      | null => simp [isBlankFor] at hblank
      | arr xs => simp [isBlankFor] at hblank
      | obj fs => simp [isBlankFor] at hblank
    | seq ex =>
      cases v with
      | str s => simp [isBlankFor] at hblank
      | num n => simp [isBlankFor] at hblank
      | bool b => simp [isBlankFor] at hblank
      | null => simp [isBlankFor] at hblank
      | obj fs => simp [isBlankFor] at hblank
      | arr xs =>
        simp only [isBlankFor] at hblank
        simp [validateField, hget, hblank]
  refine ⟨hvf, ?_⟩
  intro contract val hmem hvalid
  simp only [validate] at hvalid
  cases hff : firstFailure contract j with
  | some r => rw [hff] at hvalid; simp at hvalid
  | none =>
    have hnone := firstFailure_none contract j hff ⟨name, ty⟩ hmem
    rw [hvf] at hnone
    simp at hnone

/-- Witness for claim C4 at a concrete all-whitespace summary field. -/
theorem C4_witness :
    validateField (Json.obj [("summary", Json.str "   ")]) ⟨"summary", FieldTy.str⟩ =
      some FailReason.empty_value :=
  (C4_blank_is_empty_value (Json.obj [("summary", Json.str "   ")])
    ⟨"summary", FieldTy.str⟩ (Json.str "   ") rfl (by decide)).1

/-- Claim C10: the console submit operation sends no request and reports
the literal validation error when the trimmed niche or the trimmed notes
is empty; otherwise it sends a request whose trendSource defaults to
unspecified and whose platform defaults to TikTok when blank. -/
theorem C10_submit_validation (f : FormState) :
    ((jsTrim f.niche = "" ∨ jsTrim f.notes = "") →
      submit f = .blocked "Niche and notes are required.") ∧
    (jsTrim f.niche ≠ "" → jsTrim f.notes ≠ "" →
      submit f = .send
        { niche := jsTrim f.niche
          trendSource := if jsTrim f.trendSource = "" then "unspecified" else jsTrim f.trendSource
          notes := jsTrim f.notes
          style := f.style
          platform := if jsTrim f.platform = "" then "TikTok" else jsTrim f.platform }) := by
  constructor
  · intro h
    rcases h with h | h <;> simp [submit, h]
  · intro h1 h2
    simp [submit, h1, h2]

/-- Witness for claim C10 at a concrete form state with a blank niche. -/
theorem C10_witness :
    submit ⟨"  ", "src", "some notes", "AIDA", "TikTok"⟩ =
      .blocked "Niche and notes are required." :=
  (C10_submit_validation ⟨"  ", "src", "some notes", "AIDA", "TikTok"⟩).1
    (Or.inl (by decide))

/-- Claim C8: a request whose method is not POST is answered 405 with the
method-not-allowed detail and the Allow POST header, and is never
forwarded to the backend agent service. -/
theorem C8_non_post_rejected (method : String) (outcome : FetchOutcome)
    (h : method ≠ "POST") :
    handler method outcome =
      (⟨405, .obj [("detail", .str "Method not allowed")], some ["POST"]⟩, false) := by
  simp [handler, h]

/-- Witness for claim C8 at a concrete GET request. -/
theorem C8_witness :
    handler "GET" (.throws "x") =
      (⟨405, .obj [("detail", .str "Method not allowed")], some ["POST"]⟩, false) :=
  C8_non_post_rejected "GET" (.throws "x") (by decide)

/-- Claim C9: for a POST request the handler (a total function, so it
returns exactly one response and never propagates an exception) answers a
thrown forward with 500 and the error message detail, an ok backend reply
whose body decodes with 200 and that body unchanged, and a non-ok backend
reply with the backend status and its error payload — the decoded payload
when truthy, the default detail when falsy, an empty object when the error
body does not decode.  An ok reply whose body fails to decode reaches the
catch and is answered 500. -/
theorem C9_post_single_response (outcome : FetchOutcome) :
    (∀ msg, outcome = .throws msg →
      handler "POST" outcome = (⟨500, .obj [("detail", .str msg)], none⟩, true)) ∧
    (∀ status j, outcome = .response status (.ok j) → respOk status = true →
      handler "POST" outcome = (⟨200, j, none⟩, true)) ∧
    (∀ status msg, outcome = .response status (.error msg) → respOk status = true →
      handler "POST" outcome = (⟨500, .obj [("detail", .str msg)], none⟩, true)) ∧
    (∀ status j, outcome = .response status (.ok j) → respOk status = false →
      handler "POST" outcome =
        (⟨status, if jsTruthy j then j
          else .obj [("detail", .str "Agent call failed")], none⟩, true)) ∧
    (∀ status msg, outcome = .response status (.error msg) → respOk status = false →
      handler "POST" outcome = (⟨status, .obj [], none⟩, true)) := by
  refine ⟨?_, ?_, ?_, ?_, ?_⟩
  · intro msg hout
    subst hout
    simp [handler]
  · intro status j hout hok
    subst hout
    simp [handler, hok]
  · intro status msg hout hok
    subst hout
    simp [handler, hok]
  · intro status j hout hok
    subst hout
    simp [handler, hok]
  · intro status msg hout hok
    subst hout
    simp [handler, hok, jsTruthy]

/-- Witness for claim C9 at a concrete thrown forward. -/
theorem C9_witness :
    handler "POST" (.throws "boom") =
      (⟨500, .obj [("detail", .str "boom")], none⟩, true) :=
  (C9_post_single_response (.throws "boom")).1 "boom" rfl

/-! ## Shared lemmas about the modelled chain core -/

theorem executeStage_prompt (parse : String → Except Unit Json)
    (client : String → ClientReply) (s : StageSpec) (input : Json)
    (clar : Option FailReason) :
    (executeStage parse client s input clar).prompt = renderPrompt s input clar := by
  simp only [executeStage]
  cases client (renderPrompt s input clar) <;> rfl

theorem runStage_failure_shape (parse : String → Except Unit Json)
    (client : String → ClientReply) (s : StageSpec) (input : Json)
    (atts : List Attempt) (h : runStage parse client s input = .failure atts) :
    atts.length = 2 ∧ (∃ r1 r2, atts.map Attempt.vres = [some r1, some r2]) ∧
    ∀ a ∈ atts, a.stage = s.name := by
  simp only [runStage] at h
  cases h1 : validate s.contract (executeStage parse client s input none).candidate with
  | valid v => rw [h1] at h; simp at h
  | invalid r1 =>
    rw [h1] at h
    dsimp only at h
    cases h2 : validate s.contract (executeStage parse client s input (some r1)).candidate with
    | valid v => rw [h2] at h; simp at h
    | invalid r2 =>
      rw [h2] at h
      simp only [StageResult.failure.injEq] at h
      subst h
      refine ⟨rfl, ⟨r1, r2, rfl⟩, ?_⟩
      intro a ha
      simp only [List.mem_cons, List.not_mem_nil, or_false] at ha
      rcases ha with rfl | rfl <;> rfl

theorem runStage_attempts_stage (parse : String → Except Unit Json)
    (client : String → ClientReply) (s : StageSpec) (input : Json) :
    ∀ a ∈ (runStage parse client s input).attempts, a.stage = s.name := by
  intro a ha
  simp only [runStage] at ha
  cases h1 : validate s.contract (executeStage parse client s input none).candidate with
  | valid v =>
    rw [h1] at ha
    simp only [StageResult.attempts, List.mem_cons, List.not_mem_nil, or_false] at ha
    subst ha
    rfl
  | invalid r1 =>
    rw [h1] at ha
    dsimp only at ha
    cases h2 : validate s.contract (executeStage parse client s input (some r1)).candidate with
    | valid v =>
      rw [h2] at ha
      simp only [StageResult.attempts, List.mem_cons, List.not_mem_nil, or_false] at ha
      rcases ha with rfl | rfl <;> rfl
    | invalid r2 =>
      rw [h2] at ha
      simp only [StageResult.attempts, List.mem_cons, List.not_mem_nil, or_false] at ha
      rcases ha with rfl | rfl <;> rfl

/-- Claim C5: the Retry/Fallback Controller records at most 2 attempts for
any stage (each attempt being exactly one Stage Executor call), and when a
second attempt exists its prompt is the stage prompt extended with the
clarification note embedding the specific failure reason of the first
attempt. -/
theorem C5_at_most_two_attempts (parse : String → Except Unit Json)
    (client : String → ClientReply) (s : StageSpec) (input : Json) :
    (runStage parse client s input).attempts.length ≤ 2 ∧
    (∀ a1 a2, (runStage parse client s input).attempts = [a1, a2] →
      ∃ r1, a1.vres = some r1 ∧
        a2.prompt = s.promptTemplate input ++ clarificationNote r1 ∧
        ∃ pre post, a2.prompt = pre ++ (reasonText r1 ++ post)) := by
  simp only [runStage]
  cases h1 : validate s.contract (executeStage parse client s input none).candidate with
  | valid v =>
    constructor
    · simp [StageResult.attempts]
    · intro a1 a2 hatts
      simp [StageResult.attempts] at hatts
  | invalid r1 =>
    dsimp only
    cases h2 : validate s.contract (executeStage parse client s input (some r1)).candidate with
    | valid v =>
      constructor
      · simp [StageResult.attempts]
      · intro a1 a2 hatts
        simp only [StageResult.attempts, List.cons.injEq, and_true] at hatts
        obtain ⟨he1, he2⟩ := hatts
        subst he1
        subst he2
        refine ⟨r1, rfl, ?_, ?_⟩
        · rw [executeStage_prompt]
          rfl
        · refine ⟨s.promptTemplate input ++ "The previous attempt failed with reason ",
            ". Address this failure and reply again.", ?_⟩
          rw [executeStage_prompt]
          simp [renderPrompt, clarificationNote, String.append_assoc]
    | invalid r2 =>
      constructor
      · simp [StageResult.attempts]
      · intro a1 a2 hatts
        simp only [StageResult.attempts, List.cons.injEq, and_true] at hatts
        obtain ⟨he1, he2⟩ := hatts
        subst he1
        subst he2
        refine ⟨r1, rfl, ?_, ?_⟩
        · rw [executeStage_prompt]
          rfl
        · refine ⟨s.promptTemplate input ++ "The previous attempt failed with reason ",
            ". Address this failure and reply again.", ?_⟩
          rw [executeStage_prompt]
          simp [renderPrompt, clarificationNote, String.append_assoc]

/-- Witness for claim C5 at a concrete failing run of the summarize stage. -/
theorem C5_witness :
    ∃ r1, timeoutAttempt1.vres = some r1 ∧
      timeoutAttempt2.prompt =
        stageSummarize.promptTemplate (Json.obj []) ++ clarificationNote r1 ∧
      ∃ pre post, timeoutAttempt2.prompt = pre ++ (reasonText r1 ++ post) :=
  (C5_at_most_two_attempts parseNone clientTimeout stageSummarize (Json.obj [])).2
    timeoutAttempt1 timeoutAttempt2 (by rfl)

/-- Claim C7: a transport-level failure of the Model Client surfaces from
the Stage Executor as the parse-failure indicator (a returned value, never
an exception, the Executor being a total function), which the Contract
Validator classifies as parse error — identically to malformed output. -/
theorem C7_transport_failure_is_parse_error (parse : String → Except Unit Json)
    (client : String → ClientReply) (s : StageSpec) (input : Json)
    (clar : Option FailReason) (reason : String) (contract : List FieldReq)
    (h : client (renderPrompt s input clar) = .err reason) :
    (executeStage parse client s input clar).candidate = .error () ∧
    validate contract ((executeStage parse client s input clar).candidate) =
      .invalid .parse_error := by
  have hc : (executeStage parse client s input clar).candidate = Except.error () := by
    simp only [executeStage]
    rw [h]
  refine ⟨hc, ?_⟩
  rw [hc]
  rfl

/-- Witness for claim C7 at a concrete timing-out Model Client. -/
theorem C7_witness :
    (executeStage parseNone clientTimeout stageSummarize (Json.obj []) none).candidate =
      .error () ∧
    validate [⟨"summary", FieldTy.str⟩]
      ((executeStage parseNone clientTimeout stageSummarize (Json.obj []) none).candidate) =
      .invalid .parse_error :=
  C7_transport_failure_is_parse_error parseNone clientTimeout stageSummarize
    (Json.obj []) none "timeout" [⟨"summary", FieldTy.str⟩] rfl

theorem runChainGo_completed (parse : String → Except Unit Json)
    (client : String → ClientReply) :
    ∀ (stages : List StageSpec) (seed : Json) (outs : List (String × Json))
      (trail : List Attempt),
      runChainGo parse client stages seed = (.completed outs, trail) →
      outs.map Prod.fst = stages.map StageSpec.name := by
  intro stages
  induction stages with
  | nil =>
    intro seed outs trail h
    simp only [runChainGo, Prod.mk.injEq, RunResult.completed.injEq] at h
    obtain ⟨h1, -⟩ := h
    subst h1
    rfl
  | cons s rest ih =>
    intro seed outs trail h
    simp only [runChainGo] at h
    cases hrs : runStage parse client s seed with
    | success v atts =>
      rw [hrs] at h
      dsimp only at h
      cases hgo : runChainGo parse client rest (mergeInput seed v) with
      | mk res tr =>
        rw [hgo] at h
        cases res with
        | completed outs2 =>
          simp only [Prod.mk.injEq, RunResult.completed.injEq] at h
          obtain ⟨h1, -⟩ := h
          subst h1
          simp [ih (mergeInput seed v) outs2 tr hgo]
        | aborted p => simp at h
    | failure atts =>
      rw [hrs] at h
      simp at h

theorem runChainGo_aborted (parse : String → Except Unit Json)
    (client : String → ClientReply) :
    ∀ (stages : List StageSpec) (seed : Json) (p : AbortPayload)
      (trail : List Attempt),
      runChainGo parse client stages seed = (.aborted p, trail) →
      p.fallback = fallbackMessage ∧
      ∃ (i : Fin stages.length) (input : Json),
        p.stage = (stages.get i).name ∧
        runStage parse client (stages.get i) input = .failure p.attempts := by
  intro stages
  induction stages with
  | nil =>
    intro seed p trail h
    simp [runChainGo] at h
  | cons s rest ih =>
    intro seed p trail h
    simp only [runChainGo] at h
    cases hrs : runStage parse client s seed with
    | success v atts =>
      rw [hrs] at h
      dsimp only at h
      cases hgo : runChainGo parse client rest (mergeInput seed v) with
      | mk res tr =>
        rw [hgo] at h
        cases res with
        | completed outs2 => simp at h
        | aborted p2 =>
          simp only [Prod.mk.injEq, RunResult.aborted.injEq] at h
          obtain ⟨h1, -⟩ := h
          subst h1
          obtain ⟨hfb, i, input, hst, hrun⟩ := ih (mergeInput seed v) p2 tr hgo
          exact ⟨hfb, ⟨i.1 + 1, Nat.succ_lt_succ i.2⟩, input, hst, hrun⟩
    | failure atts =>
      rw [hrs] at h
      simp only [Prod.mk.injEq, RunResult.aborted.injEq] at h
      obtain ⟨h1, -⟩ := h
      subst h1
      exact ⟨rfl, ⟨0, Nat.succ_pos _⟩, seed, rfl, hrs⟩

/-- Claim C2: a run is all-or-nothing — a completed run carries one output
per stage in stage order, and an aborted run hands the caller the literal
fallback string, the failing stage name, and exactly the two failing
attempts with their two failure reasons, never a half-completed composite. -/
theorem C2_abort_fallback_all_or_nothing (parse : String → Except Unit Json)
    (client : String → ClientReply) (stages : List StageSpec) (seed : Json) :
    (∀ outs trail, runChain parse client stages seed = (.completed outs, trail) →
      outs.map Prod.fst = stages.map StageSpec.name) ∧
    (∀ p trail, runChain parse client stages seed = (.aborted p, trail) →
      p.fallback = fallbackMessage ∧ p.attempts.length = 2 ∧
      (∃ r1 r2, p.attempts.map Attempt.vres = [some r1, some r2]) ∧
      ∃ i : Fin stages.length, p.stage = (stages.get i).name) := by
  constructor
  · intro outs trail h
    exact runChainGo_completed parse client stages seed outs trail h
  · intro p trail h
    obtain ⟨hfb, i, input, hst, hrun⟩ :=
      runChainGo_aborted parse client stages seed p trail h
    obtain ⟨hlen, hr, -⟩ :=
      runStage_failure_shape parse client (stages.get i) input p.attempts hrun
    exact ⟨hfb, hlen, hr, ⟨i, hst⟩⟩

/-- Witness for claim C2 at a concrete aborted run. -/
theorem C2_witness :
    timeoutPayload.fallback = fallbackMessage ∧
    timeoutPayload.attempts.length = 2 ∧
    (∃ r1 r2, timeoutPayload.attempts.map Attempt.vres = [some r1, some r2]) ∧
    ∃ i : Fin trendStages.length, timeoutPayload.stage = (trendStages.get i).name :=
  (C2_abort_fallback_all_or_nothing parseNone clientTimeout trendStages (Json.obj [])).2
    timeoutPayload [timeoutAttempt1, timeoutAttempt2] (by rfl)

/-- Claim C6: when the chain reaches a stage whose two attempts both fail,
the run terminates aborted at that stage: the result carries the fallback
payload with exactly that stage's 2 attempts, and the recorded trail is
exactly the successful-prefix trail followed by those 2 attempts — no
later stage executes or records anything. -/
theorem C6_abort_stops_chain (parse : String → Except Unit Json)
    (client : String → ClientReply) (pre : List StageSpec) (s : StageSpec)
    (post : List StageSpec) (seed inp : Json) (trail1 atts : List Attempt)
    (h1 : runUpTo parse client pre seed = some (inp, trail1))
    (h2 : runStage parse client s inp = .failure atts) :
    runChain parse client (pre ++ s :: post) seed =
      (.aborted ⟨fallbackMessage, s.name, atts⟩, trail1 ++ atts) ∧
    atts.length = 2 ∧ ∀ a ∈ atts, a.stage = s.name := by
  refine ⟨?_, (runStage_failure_shape parse client s inp atts h2).1,
    (runStage_failure_shape parse client s inp atts h2).2.2⟩
  induction pre generalizing seed trail1 with
  | nil =>
    simp only [runUpTo, Option.some.injEq, Prod.mk.injEq] at h1
    obtain ⟨hinp, htr⟩ := h1
    subst hinp
    subst htr
    simp only [List.nil_append, runChain, runChainGo]
    rw [h2]
  | cons q pre2 ih =>
    simp only [runUpTo] at h1
    cases hq : runStage parse client q seed with
    | failure atts2 =>
      rw [hq] at h1
      simp at h1
    | success v atts2 =>
      rw [hq] at h1
      dsimp only at h1
      cases hup : runUpTo parse client pre2 (mergeInput seed v) with
      | none =>
        rw [hup] at h1
        simp at h1
      | some pr =>
        obtain ⟨inp2, tr2⟩ := pr
        rw [hup] at h1
        simp only [Option.some.injEq, Prod.mk.injEq] at h1
        obtain ⟨hinp, htr⟩ := h1
        subst hinp
        subst htr
        have hrec := ih (mergeInput seed v) tr2 hup
        simp only [runChain, List.append_eq] at hrec
        simp only [List.cons_append, runChain, runChainGo, List.append_eq]
        rw [hq]
        dsimp only
        rw [hrec]
        simp [List.append_assoc]

/-- Witness for claim C6 at a concrete run failing at the first stage. -/
theorem C6_witness :
    runChain parseNone clientTimeout
        ([] ++ stageSummarize :: [stageIdeas, stageHooks, stageScores]) (Json.obj []) =
      (.aborted ⟨fallbackMessage, stageSummarize.name,
          [timeoutAttempt1, timeoutAttempt2]⟩,
        [] ++ [timeoutAttempt1, timeoutAttempt2]) ∧
    ([timeoutAttempt1, timeoutAttempt2] : List Attempt).length = 2 ∧
    ∀ a ∈ ([timeoutAttempt1, timeoutAttempt2] : List Attempt),
      a.stage = stageSummarize.name :=
  C6_abort_stops_chain parseNone clientTimeout [] stageSummarize
    [stageIdeas, stageHooks, stageScores] (Json.obj []) (Json.obj [])
    [] [timeoutAttempt1, timeoutAttempt2] (by rfl) (by rfl)
